import Mathlib

/-!
Verification development for the CSV formatter pipeline
(`csv_formatter.py`): a shallow embedding of its data model and of the
functions `read_csv_with_fallback`, `prepare_dataframe`,
`determine_lookup_columns`, `prompt_user_column`, `clean_key_column`,
`perform_merge`, `process_merge_results` and `apply_vlookup`, together
with theorems settling the specification claims about them.

Modelling conventions:
* a pandas `DataFrame` is a `Relation`: an ordered list of column names
  over an ordered list of rows of cells;
* a cell is `Cell.null` (NaN/None), a text value, or an integer value;
  Python `str(...)` of a cell is `cellToStr` (NaN prints as `"nan"`);
* external collaborators (the CSV/Excel readers, the interactive column
  prompt, the wall clock, the date parser, the random fallback-remark
  source) enter as explicit parameters, so every definition stays pure
  and executable;
* code that raises is modelled with `Option`/`Except`.
-/

set_option maxHeartbeats 1000000

/-- A cell of a relation: NaN/None, a text value, or an integer value. -/
inductive Cell where
  | null : Cell
  | str : String → Cell
  | int : Int → Cell
deriving DecidableEq

/-- Python `str(...)` applied to a cell; `str(nan) = "nan"`. -/
def cellToStr : Cell → String
  | Cell.null => "nan"
  | Cell.str s => s
  | Cell.int n => toString n

/-- The whitespace characters removed by Python `str.strip()`. -/
def isPySpace (c : Char) : Bool :=
  c = ' ' || c = '\t' || c = '\n' || c = '\r' || c = '\x0b' || c = '\x0c'

/-- Python `str.strip()` on a character list. -/
def pyStripList (l : List Char) : List Char :=
  ((l.dropWhile isPySpace).reverse.dropWhile isPySpace).reverse

/-- Python `str.strip()`. -/
def pyStrip (s : String) : String := String.mk (pyStripList s.data)

/-- Python `str.lower()` (ASCII, as used for the null-sentinel check). -/
def pyLower (s : String) : String := String.mk (s.data.map Char.toLower)

/-- Python `s.replace(".0", "")`: remove every occurrence of the
substring `".0"`, scanning left to right without overlap.  This is the
transform of `clean_key_column` (`.str.replace('.0', '', regex=False)`
replaces all occurrences, not only a trailing one). -/
def replaceDotZero : List Char → List Char
  | [] => []
  | '.' :: '0' :: rest => replaceDotZero rest
  | c :: rest => c :: replaceDotZero rest

/-- `clean_key_column`'s per-value transform, on strings. -/
def stripDotZeroStr (s : String) : String := String.mk (replaceDotZero s.data)

/-- An in-memory relation: ordered named columns over ordered rows.
Well-formed relations have `row.length = cols.length` for every row. -/
structure Relation where
  cols : List String
  rows : List (List Cell)
deriving DecidableEq

/-- Every row of the relation is aligned with its column list. -/
def Rect (r : Relation) : Prop := ∀ row ∈ r.rows, row.length = r.cols.length

instance (r : Relation) : Decidable (Rect r) := by
  unfold Rect; infer_instance

/-- Value of the (first) column named `target` in a row, `Cell.null` when
the column is absent. -/
def rowCell : List String → List Cell → String → Cell
  | [], _, _ => Cell.null
  | _, [], _ => Cell.null
  | c :: cs, v :: vs, target => if c = target then v else rowCell cs vs target

/-- Overwrite the cell of the (first) column named `target` in a row. -/
def rowSet : List String → List Cell → String → Cell → List Cell
  | [], r, _, _ => r
  | _ :: _, [], _, _ => []
  | c :: cs, v :: vs, target, newV =>
      if c = target then newV :: vs else v :: rowSet cs vs target newV

/-- `fillna` on the column named `target` of a row. -/
def rowFillna : List String → List Cell → String → Cell → List Cell
  | [], r, _, _ => r
  | _ :: _, [], _, _ => []
  | c :: cs, v :: vs, target, d =>
      if c = target then (if v = Cell.null then d else v) :: vs
      else v :: rowFillna cs vs target d

/-- Drop from a row the cells of the columns listed in `dropL`. -/
def rowDrop : List String → List String → List Cell → List Cell
  | [], _, _ => []
  | _ :: _, _, [] => []
  | c :: cs, dropL, v :: vs =>
      if c ∈ dropL then rowDrop cs dropL vs else v :: rowDrop cs dropL vs

/-- `List.map` with the row index available, starting from `n`. -/
def mapIdxFrom (f : Nat → α → β) : Nat → List α → List β
  | _, [] => []
  | i, a :: l => f i a :: mapIdxFrom f (i + 1) l

/-- `df[c] = series` where the series value for row `i` with content
`row` is `f i row`: replaces the column in place when it exists,
otherwise appends it at the end (pandas column assignment). -/
def setColF (r : Relation) (c : String) (f : Nat → List Cell → Cell) : Relation :=
  if c ∈ r.cols then
    { cols := r.cols, rows := mapIdxFrom (fun i row => rowSet r.cols row c (f i row)) 0 r.rows }
  else
    { cols := r.cols ++ [c], rows := mapIdxFrom (fun i row => row ++ [f i row]) 0 r.rows }

/-- `df[c] = df[c].fillna(d)`. -/
def fillnaCol (r : Relation) (c : String) (d : Cell) : Relation :=
  { cols := r.cols, rows := r.rows.map (fun row => rowFillna r.cols row c d) }

/-- `df.drop(dropL, axis=1)` (the source only ever drops present columns). -/
def dropColsR (r : Relation) (dropL : List String) : Relation :=
  { cols := r.cols.filter (fun c => !decide (c ∈ dropL))
  , rows := r.rows.map (fun row => rowDrop r.cols dropL row) }

/-- `df[selected]`: projection to the listed columns, in their order. -/
def projectR (r : Relation) (selected : List String) : Relation :=
  { cols := selected
  , rows := r.rows.map (fun row => selected.map (fun c => rowCell r.cols row c)) }

/-- Cell of row `i`, column `c` of a relation. -/
def cellOf (r : Relation) (c : String) (i : Nat) : Cell :=
  rowCell r.cols (r.rows.getD i []) c

/-! ## `read_csv_with_fallback` -/

/-- The ordered encoding candidates of `read_csv_with_fallback`. -/
def encodingCandidates : List String := ["utf-8", "latin1", "utf-16"]

/-- Try the candidates in order; `tryRead e = none` models
`pd.read_csv` raising `UnicodeDecodeError` for encoding `e`. -/
def tryEncodings (tryRead : String → Option Relation) : List String → Option Relation
  | [] => none
  | e :: rest =>
    match tryRead e with
    | some r => some r
    | none => tryEncodings tryRead rest

/-- `read_csv_with_fallback`: first successful decode wins, `none`
(after the error log) when every candidate fails. -/
def readCsvWithFallback (tryRead : String → Option Relation) : Option Relation :=
  tryEncodings tryRead encodingCandidates

/-! ## `prepare_dataframe` -/

/-- `selected_columns` of `prepare_dataframe` (before `Remarks` is appended). -/
def requiredProjection : List String :=
  ["Case Number", "SLA", "Customer Name", "Street", "Zip/Postal Code",
   "Customer Complaint", "Product Description", "LineItem Status", "Technician Name"]

/-- The required columns that must already be present in the input
relation (the projection columns that `prepare_dataframe` does not
derive itself). -/
def requiredInput : List String :=
  ["Case Number", "Customer Name", "Street", "Zip/Postal Code",
   "Customer Complaint", "Product Description", "Technician Name"]

/-- `(datetime.now() - created).dt.days.fillna(0)` for one cell:
`parse` is the `pd.to_datetime(..., dayfirst=True, errors='coerce')`
collaborator (timestamps in seconds), `now` the injected clock.
`NaT` (parse failure or null input) yields 0; otherwise the whole-day
difference, floored (`Timedelta.days` floors). -/
def slaOf (parse : Cell → Option Int) (now : Int) (c : Cell) : Int :=
  match (if c = Cell.null then none else parse c) with
  | none => 0
  | some t => (now - t).fdiv 86400

/-- `fillna('New').astype(str)` for one status cell. -/
def statusNorm : Cell → Cell
  | Cell.null => Cell.str "New"
  | c => Cell.str (cellToStr c)

/-- `fillna('').astype(str)` for one remarks cell. -/
def remToStr : Cell → Cell
  | Cell.null => Cell.str ""
  | c => Cell.str (cellToStr c)

/-- The columns of `need` absent from `cols` (pandas names exactly these
in the `KeyError` raised by `df[selected]`). -/
def missingFrom (cols need : List String) : List String :=
  need.filter (fun c => !decide (c ∈ cols))

/-- State of `prepare_dataframe` after
`df['SLA'] = (datetime.now() - df['Created Date']).dt.days.fillna(0).astype(int)`. -/
def prepSLA (parse : Cell → Option Int) (now : Int) (df : Relation) : Relation :=
  setColF df "SLA"
    (fun _ row => Cell.int (slaOf parse now (rowCell df.cols row "Created Date")))

/-- State after `df['LineItem Status'] = df['LineItem Status'].fillna('New').astype(str)`. -/
def prepStatus (parse : Cell → Option Int) (now : Int) (df : Relation) : Relation :=
  setColF (prepSLA parse now df) "LineItem Status"
    (fun _ row => statusNorm (rowCell (prepSLA parse now df).cols row "LineItem Status"))

/-- State after the remarks-column resolution: prefer `Technician
Remarks` (then dropped), else `Remarks`, else per-row fallback filler. -/
def prepRemarks (parse : Cell → Option Int) (now : Int) (fallback : Nat → String)
    (df : Relation) : Relation :=
  if "Technician Remarks" ∈ (prepStatus parse now df).cols then
    dropColsR (setColF (prepStatus parse now df) "Remarks"
      (fun _ row => remToStr (rowCell (prepStatus parse now df).cols row "Technician Remarks")))
      ["Technician Remarks"]
  else if "Remarks" ∈ (prepStatus parse now df).cols then
    setColF (prepStatus parse now df) "Remarks"
      (fun _ row => remToStr (rowCell (prepStatus parse now df).cols row "Remarks"))
  else
    setColF (prepStatus parse now df) "Remarks" (fun i _ => Cell.str (fallback i))

/-- `prepare_dataframe`.  `parse`/`now` model the date parsing and the
wall clock, `fallback i` the `random.choice(FALLBACK_REMARKS)` drawn for
row `i`.  Accessing a missing column raises a `KeyError` in the source,
modelled by `Except.error` naming the column(s). -/
def prepareDataframe (parse : Cell → Option Int) (now : Int) (fallback : Nat → String)
    (df : Relation) : Except (List String) Relation :=
  if "Created Date" ∈ df.cols then
    if "LineItem Status" ∈ (prepSLA parse now df).cols then
      if missingFrom (prepRemarks parse now fallback df).cols (requiredProjection ++ ["Remarks"]) = [] then
        Except.ok (projectR (prepRemarks parse now fallback df) (requiredProjection ++ ["Remarks"]))
      else
        Except.error
          (missingFrom (prepRemarks parse now fallback df).cols (requiredProjection ++ ["Remarks"]))
    else Except.error ["LineItem Status"]
  else Except.error ["Created Date"]

/-! ## `determine_lookup_columns` and `clean_key_column` -/

/-- `prompt_user_column`: `ans` is what `simpledialog.askstring`
returned (`none` means the dialog was cancelled); any answer not in the
candidate list yields `""`. -/
def promptUserColumn (ans : Option String) (columns : List String) : String :=
  match ans with
  | some c => if c ∈ columns then c else ""
  | none => ""

/-- `determine_lookup_columns`.  `askKey`/`askValue` model the two
possible interactive prompts. -/
def determineLookupColumns (df lkp : Relation) (askKey askValue : Option String) :
    String × String :=
  let keyColumn :=
    if "Case Number" ∈ lkp.cols then "Case Number"
    else promptUserColumn askKey lkp.cols
  if keyColumn = "" then ("", "")
  else if ¬ keyColumn ∈ df.cols then ("", "")
  else
    let valueColumn :=
      if "Remarks" ∈ lkp.cols then "Remarks"
      else promptUserColumn askValue lkp.cols
    (keyColumn, valueColumn)

/-- `clean_key_column`: `df[column] = df[column].astype(str)
.str.replace('.0', '', regex=False)` (the callers guarantee that
`column` is present). -/
def cleanKeyColumn (df : Relation) (column : String) : Relation :=
  setColF df column
    (fun _ row => Cell.str (stripDotZeroStr (cellToStr (rowCell df.cols row column))))

/-! ## `perform_merge` -/

/-- Pandas join-key equality: null never matches anything. -/
def cellMatch (a b : Cell) : Bool :=
  !(a == Cell.null) && !(b == Cell.null) && (a == b)

/-- The secondary rows whose key cell matches `k`, in order. -/
def matchingRows (lkp : Relation) (key : String) (k : Cell) : List (List Cell) :=
  lkp.rows.filter (fun lr => cellMatch (rowCell lkp.cols lr key) k)

/-- Row block of a pandas left merge: each primary row is emitted once
per matching secondary row (with the looked-up value appended), or once
with a null value when nothing matches. -/
def mergeRowsGo (df lkp : Relation) (key value : String) : List (List Cell) → List (List Cell)
  | [] => []
  | row :: rest =>
    (match matchingRows lkp key (rowCell df.cols row key) with
     | [] => [row ++ [Cell.null]]
     | ms => ms.map (fun lr => row ++ [rowCell lkp.cols lr value])) ++
    mergeRowsGo df lkp key value rest

/-- `df.merge(lookup_df[[key, value]], on=key, how='left')`: the primary
columns (the one colliding with `value` suffixed `_x`) followed by the
contributed value column (suffixed `_y` on collision). -/
def mergeLeft (df lkp : Relation) (key value : String) : Relation :=
  { cols :=
      df.cols.map (fun c => if c = value ∧ value ∈ df.cols ∧ value ≠ key then value ++ "_x" else c) ++
      [if value ∈ df.cols ∧ value ≠ key then value ++ "_y" else value]
  , rows := mergeRowsGo df lkp key value df.rows }

/-- `perform_merge`: `none` models the `except` branch (pandas raises
when a named column is absent, or when `value = key` makes the projected
right side carry a duplicate label). -/
def performMerge (df lkp : Relation) (key value : String) : Option Relation :=
  if key ∈ df.cols ∧ key ∈ lkp.cols ∧ value ∈ lkp.cols ∧ value ≠ key then
    some (mergeLeft df lkp key value)
  else none

/-! ## `process_merge_results` -/

/-- `original_remarks_col`. -/
def origColOf (cols : List String) : String :=
  if "Remarks_x" ∈ cols then "Remarks_x" else "Remarks"

/-- `lookup_remarks_col`. -/
def lookColOf (cols : List String) (value : String) : String :=
  if "Remarks_y" ∈ cols then "Remarks_y" else value

/-- `str(row[lookup_remarks_col]).strip()` guarded by the column check;
`""` when the column is absent. -/
def lookupValStr (cols : List String) (lookCol : String) (row : List Cell) : String :=
  if lookCol ∈ cols then pyStrip (cellToStr (rowCell cols row lookCol)) else ""

/-- `vlookup_result and vlookup_result.lower() not in ['nan', '', 'none']`. -/
def isOverlay (v : String) : Bool :=
  v != "" && !(decide (pyLower v ∈ ["nan", "", "none"]))

/-- One iteration of the reconciliation loop: write into `Remarks` the
looked-up value when it passes the sentinel check, else the (stripped)
value currently in the original-remarks column. -/
def reconcileRow (cols : List String) (origCol lookCol : String) (row : List Cell) : List Cell :=
  let v := lookupValStr cols lookCol row
  let o := if origCol ∈ cols then pyStrip (cellToStr (rowCell cols row origCol)) else ""
  rowSet cols row "Remarks" (Cell.str (if isOverlay v then v else o))

/-- `cols_to_drop` as accumulated by `process_merge_results`. -/
def dropListOf (cols : List String) (value : String) : List String :=
  let l1 := if "Remarks_x" ∈ cols then ["Remarks_x"] else []
  let l2 := if "Remarks_y" ∈ cols then l1 ++ ["Remarks_y"] else l1
  if value ≠ "Remarks" ∧ value ∈ cols ∧ ¬ value ∈ l2 then l2 ++ [value] else l2

/-- State of `process_merge_results` after the `fillna('')` of the
looked-up column (a no-op when that column is absent). -/
def pmrM1 (merged : Relation) (value : String) : Relation :=
  if lookColOf merged.cols value ∈ merged.cols then
    fillnaCol merged (lookColOf merged.cols value) (Cell.str "")
  else merged

/-- State after `merged['Remarks'] = ''` (overwrites the column when it
already exists, appends it otherwise). -/
def pmrM2 (merged : Relation) (value : String) : Relation :=
  setColF (pmrM1 merged value) "Remarks" (fun _ _ => Cell.str "")

/-- State after the row-by-row reconciliation loop. -/
def pmrM3 (merged : Relation) (value : String) : Relation :=
  { cols := (pmrM2 merged value).cols
  , rows := (pmrM2 merged value).rows.map
      (reconcileRow (pmrM2 merged value).cols (origColOf merged.cols)
        (lookColOf merged.cols value)) }

/-- `process_merge_results`: fill the looked-up column's nulls with
`''`, initialise `Remarks` to `''` (overwriting it when it already
exists), reconcile row by row, then drop the transient columns. -/
def processMergeResults (merged : Relation) (value : String) : Relation :=
  dropColsR (pmrM3 merged value) (dropListOf (pmrM3 merged value).cols value)

/-- The `(vlookup_overwrites, original_kept)` statistics logged by
`process_merge_results`, replayed over the same pre-loop state. -/
def mergeStats (merged : Relation) (value : String) : Nat × Nat :=
  (pmrM2 merged value).rows.foldl
    (fun acc row =>
      if isOverlay (lookupValStr (pmrM2 merged value).cols (lookColOf merged.cols value) row)
      then (acc.1 + 1, acc.2)
      else (acc.1, acc.2 + 1))
    (0, 0)

/-! ## `apply_vlookup` -/

/-- `apply_vlookup`, parametric in the merge step (which the source
wraps in a `try`/`except` returning `None` on failure).  `lookupRead` is
the result of `read_lookup_file`. -/
def applyVlookupWith
    (mergeFn : Relation → Relation → String → String → Option Relation)
    (df : Relation) (lookupRead : Option Relation) (askKey askValue : Option String) :
    Relation :=
  match lookupRead with
  | none => df
  | some lkp =>
    let kv := determineLookupColumns df lkp askKey askValue
    if kv.1 = "" ∨ kv.2 = "" then df
    else
      let df2 := cleanKeyColumn df kv.1
      let lkp2 := cleanKeyColumn lkp kv.1
      match mergeFn df2 lkp2 kv.1 kv.2 with
      | none => df2
      | some merged => processMergeResults merged kv.2

/-- `apply_vlookup` with the actual merge operation. -/
def applyVlookup (df : Relation) (lookupRead : Option Relation)
    (askKey askValue : Option String) : Relation :=
  applyVlookupWith performMerge df lookupRead askKey askValue

/-- Step function of the statistics fold: count one overlay overwrite
or one kept original per row. -/
def pairStep {Y : Type} (p : Y -> Bool) (acc : Nat × Nat) (row : Y) : Nat × Nat :=
  if p row then (acc.1 + 1, acc.2) else (acc.1, acc.2 + 1)

/-! ## Concrete instances used by the claim theorems below -/

/-- Merged relation where the looked-up column ("Notes") is distinct
from "Remarks" and its value is a null-sentinel. -/
def mergedC1 : Relation :=
  ⟨["Case Number", "Remarks", "Notes"],
   [[Cell.str "1", Cell.str "pending", Cell.str "nan"]]⟩

/-- Merged relation in the standard collision shape. -/
def mergedW1 : Relation :=
  ⟨["Case Number", "Remarks_x", "Remarks_y"],
   [[Cell.str "1", Cell.str "", Cell.str "resolved"]]⟩

/-- One-row primary relation. -/
def dfC2 : Relation :=
  ⟨["Case Number", "Remarks"], [[Cell.str "1", Cell.str "orig"]]⟩

/-- Secondary relation with a duplicated key value. -/
def lkpC2 : Relation :=
  ⟨["Case Number", "Remarks"],
   [[Cell.str "1", Cell.str "a"], [Cell.str "1", Cell.str "b"]]⟩

/-- Secondary relation with unique key values. -/
def lkpW2 : Relation :=
  ⟨["Case Number", "Remarks"], [[Cell.str "1", Cell.str "a"]]⟩

/-- Row count of an optional merge result. -/
def optRowCount (o : Option Relation) : Option Nat :=
  match o with
  | none => none
  | some r => some r.rows.length

/-- Relation whose key value has a non-trailing ".0". -/
def relC3 : Relation := ⟨["Case Number"], [[Cell.str "100.05"]]⟩

/-- Relation whose key value has the float artifact ".0" at the end. -/
def relW3 : Relation :=
  ⟨["Case Number", "Remarks"], [[Cell.str "123.0", Cell.str "r"]]⟩

/-- Primary relation for the unresolved-key scenario. -/
def dfW4 : Relation :=
  ⟨["Case Number", "Remarks"], [[Cell.str "7", Cell.str "keep me"]]⟩

/-- Lookup relation without a "Case Number" column. -/
def lkpW4 : Relation :=
  ⟨["Some Key", "Some Value"], [[Cell.str "7", Cell.str "x"]]⟩

/-- Date parser double: "01/01/2024" parses to timestamp 0. -/
def parseW5 : Cell → Option Int :=
  fun c => if c = Cell.str "01/01/2024" then some 0 else none

/-- Date parser double that never parses. -/
def parseNone : Cell → Option Int := fun _ => none

/-- Fallback-remark source double. -/
def fallbackW : Nat → String := fun _ => "visit pending"

/-- Full-schema primary relation with a parseable creation date. -/
def dfW5 : Relation :=
  ⟨["Case Number", "Created Date", "Customer Name", "Street", "Zip/Postal Code",
    "Customer Complaint", "Product Description", "LineItem Status", "Technician Name",
    "Technician Remarks"],
   [[Cell.str "1", Cell.str "01/01/2024", Cell.str "A", Cell.str "B", Cell.str "C",
     Cell.str "D", Cell.str "E", Cell.null, Cell.str "F", Cell.str "pending"]]⟩

/-- Full-schema relation whose status cell is the empty string. -/
def relC6empty : Relation :=
  ⟨["Case Number", "Created Date", "Customer Name", "Street", "Zip/Postal Code",
    "Customer Complaint", "Product Description", "LineItem Status", "Technician Name"],
   [[Cell.str "1", Cell.null, Cell.str "A", Cell.str "B", Cell.str "C",
     Cell.str "D", Cell.str "E", Cell.str "", Cell.str "F"]]⟩

/-- Relation with a creation-date column but no status column. -/
def relC6absent : Relation :=
  ⟨["Case Number", "Created Date"], [[Cell.str "1", Cell.null]]⟩

/-- Full-schema relation whose status cell is null. -/
def relW6 : Relation :=
  ⟨["Case Number", "Created Date", "Customer Name", "Street", "Zip/Postal Code",
    "Customer Complaint", "Product Description", "LineItem Status", "Technician Name"],
   [[Cell.str "1", Cell.null, Cell.str "A", Cell.str "B", Cell.str "C",
     Cell.str "D", Cell.str "E", Cell.null, Cell.str "F"]]⟩

/-- A tiny relation returned by the reader double. -/
def relW7 : Relation := ⟨["A"], []⟩

/-- Reader double failing on "utf-8" and succeeding on "latin1". -/
def tryReadW7 : String → Option Relation :=
  fun e => if e = "latin1" then some relW7 else none

/-- Relation missing the "Street" and "Technician Name" columns. -/
def relC8 : Relation :=
  ⟨["Created Date", "LineItem Status", "Case Number", "Customer Name",
    "Zip/Postal Code", "Customer Complaint", "Product Description"],
   [[Cell.null, Cell.null, Cell.str "1", Cell.str "A", Cell.str "B", Cell.str "C",
     Cell.str "D"]]⟩

/-- Two-row merged relation in the collision shape. -/
def mergedW9 : Relation :=
  ⟨["Case Number", "Remarks_x", "Remarks_y"],
   [[Cell.str "1", Cell.str "keep", Cell.str ""],
    [Cell.str "2", Cell.str "x", Cell.str "r2"]]⟩

/-- Merge-step double that always fails. -/
def mergeNone : Relation → Relation → String → String → Option Relation :=
  fun _ _ _ _ => none

/-- Primary relation whose key carries a float artifact. -/
def dfW10 : Relation :=
  ⟨["Case Number", "Remarks"], [[Cell.str "5.0", Cell.str "hello"]]⟩

/-- Lookup relation with conventional key and value columns. -/
def lkpW10 : Relation :=
  ⟨["Case Number", "Remarks"], [[Cell.str "5", Cell.str "lkp"]]⟩

/-! ## Basic lemmas about the row and list helpers -/

theorem length_mapIdxFrom (f : Nat → α → β) (n : Nat) (l : List α) :
    (mapIdxFrom f n l).length = l.length := by
  induction l generalizing n with
  | nil => rfl
  | cons a l ih => simp [mapIdxFrom, ih]

theorem getD_mapIdxFrom (f : Nat → α → β) (n i : Nat) (l : List α) (d : α) (d2 : β)
    (hi : i < l.length) :
    (mapIdxFrom f n l).getD i d2 = f (n + i) (l.getD i d) := by
  induction l generalizing n i with
  | nil => simp at hi
  | cons a l ih =>
    cases i with
    | zero => simp [mapIdxFrom]
    | succ i =>
      simp only [mapIdxFrom, List.getD_cons_succ]
      rw [ih (n + 1) i (by simpa using hi)]
      congr 1
      omega

theorem mem_mapIdxFrom {f : Nat → α → β} {n : Nat} {l : List α} {b : β}
    (hb : b ∈ mapIdxFrom f n l) : ∃ i a, a ∈ l ∧ b = f i a := by
  induction l generalizing n with
  | nil => simp [mapIdxFrom] at hb
  | cons a l ih =>
    simp only [mapIdxFrom, List.mem_cons] at hb
    rcases hb with h | h
    · exact ⟨n, a, List.mem_cons_self a l, h⟩
    · obtain ⟨i, a2, ha, hb2⟩ := ih h
      exact ⟨i, a2, List.mem_cons_of_mem _ ha, hb2⟩

theorem getD_map (f : α → β) (l : List α) (i : Nat) (d : α) (d2 : β) (hi : i < l.length) :
    (l.map f).getD i d2 = f (l.getD i d) := by
  induction l generalizing i with
  | nil => simp at hi
  | cons a l ih =>
    cases i with
    | zero => rfl
    | succ i =>
      simp only [List.map_cons, List.getD_cons_succ]
      exact ih i (by simpa using hi)

theorem getD_mem (l : List α) (i : Nat) (d : α) (hi : i < l.length) : l.getD i d ∈ l := by
  induction l generalizing i with
  | nil => simp at hi
  | cons a l ih =>
    cases i with
    | zero => exact List.mem_cons_self _ _
    | succ i => exact List.mem_cons_of_mem _ (ih i (by simpa using hi))

theorem rowSet_length (cols : List String) (row : List Cell) (c : String) (v : Cell) :
    (rowSet cols row c v).length = row.length := by
  induction cols generalizing row with
  | nil => simp [rowSet]
  | cons c0 cs ih =>
    cases row with
    | nil => simp [rowSet]
    | cons v0 vs =>
      by_cases h : c0 = c <;> simp [rowSet, h, ih]

theorem rowFillna_length (cols : List String) (row : List Cell) (c : String) (d : Cell) :
    (rowFillna cols row c d).length = row.length := by
  induction cols generalizing row with
  | nil => simp [rowFillna]
  | cons c0 cs ih =>
    cases row with
    | nil => simp [rowFillna]
    | cons v0 vs =>
      by_cases h : c0 = c <;> simp [rowFillna, h, ih]

theorem rowCell_rowSet_self (cols : List String) (row : List Cell) (c : String) (v : Cell)
    (hc : c ∈ cols) (hlen : row.length = cols.length) :
    rowCell cols (rowSet cols row c v) c = v := by
  induction cols generalizing row with
  | nil => simp at hc
  | cons c0 cs ih =>
    cases row with
    | nil => simp at hlen
    | cons v0 vs =>
      by_cases h : c0 = c
      · simp [rowSet, rowCell, h]
      · have hc2 : c ∈ cs := by
          rcases List.mem_cons.mp hc with h1 | h1
          · exact absurd h1.symm h
          · exact h1
        simp [rowSet, rowCell, h, ih vs hc2 (by simpa using hlen)]

theorem rowCell_rowSet_ne (cols : List String) (row : List Cell) (c t : String) (v : Cell)
    (hne : t ≠ c) :
    rowCell cols (rowSet cols row c v) t = rowCell cols row t := by
  induction cols generalizing row with
  | nil => simp [rowSet]
  | cons c0 cs ih =>
    cases row with
    | nil => simp [rowSet]
    | cons v0 vs =>
      by_cases h : c0 = c
      · subst h
        simp [rowSet, rowCell, Ne.symm hne]
      · by_cases h0t : c0 = t
        · subst h0t
          simp [rowSet, rowCell, h, hne]
        · simp [rowSet, rowCell, h, h0t, ih vs]

theorem rowCell_rowFillna_self (cols : List String) (row : List Cell) (c : String) (d : Cell)
    (hc : c ∈ cols) (hlen : row.length = cols.length) :
    rowCell cols (rowFillna cols row c d) c =
      (if rowCell cols row c = Cell.null then d else rowCell cols row c) := by
  induction cols generalizing row with
  | nil => simp at hc
  | cons c0 cs ih =>
    cases row with
    | nil => simp at hlen
    | cons v0 vs =>
      by_cases h : c0 = c
      · by_cases hv : v0 = Cell.null <;> simp [rowFillna, rowCell, h, hv]
      · have hc2 : c ∈ cs := by
          rcases List.mem_cons.mp hc with h1 | h1
          · exact absurd h1.symm h
          · exact h1
        simp [rowFillna, rowCell, h, ih vs hc2 (by simpa using hlen)]

theorem rowCell_rowFillna_ne (cols : List String) (row : List Cell) (c t : String) (d : Cell)
    (hne : t ≠ c) :
    rowCell cols (rowFillna cols row c d) t = rowCell cols row t := by
  induction cols generalizing row with
  | nil => simp [rowFillna]
  | cons c0 cs ih =>
    cases row with
    | nil => simp [rowFillna]
    | cons v0 vs =>
      by_cases h : c0 = c
      · subst h
        simp [rowFillna, rowCell, Ne.symm hne]
      · by_cases h0t : c0 = t
        · subst h0t
          simp [rowFillna, rowCell, h, hne]
        · simp [rowFillna, rowCell, h, h0t, ih vs]

theorem rowCell_append_new (cols : List String) (row : List Cell) (c : String) (v : Cell)
    (hlen : row.length = cols.length) (hc : ¬ c ∈ cols) :
    rowCell (cols ++ [c]) (row ++ [v]) c = v := by
  induction cols generalizing row with
  | nil =>
    cases row with
    | nil => simp [rowCell]
    | cons v0 vs => simp at hlen
  | cons c0 cs ih =>
    cases row with
    | nil => simp at hlen
    | cons v0 vs =>
      have h0 : ¬ c0 = c := fun hh => hc (hh ▸ List.mem_cons_self c0 cs)
      simp only [List.cons_append, rowCell, if_neg h0]
      exact ih vs (by simpa using hlen) (fun hh => hc (List.mem_cons_of_mem _ hh))

theorem rowCell_append_old (cols : List String) (row : List Cell) (c t : String) (v : Cell)
    (hlen : row.length = cols.length) (ht : t ≠ c) :
    rowCell (cols ++ [c]) (row ++ [v]) t = rowCell cols row t := by
  induction cols generalizing row with
  | nil =>
    cases row with
    | nil => simp [rowCell, Ne.symm ht]
    | cons v0 vs => simp at hlen
  | cons c0 cs ih =>
    cases row with
    | nil => simp at hlen
    | cons v0 vs =>
      by_cases h0 : c0 = t
      · simp [rowCell, h0]
      · simp only [List.cons_append, rowCell, if_neg h0]
        exact ih vs (by simpa using hlen)

theorem rowDrop_length_cols (cols dropL : List String) (row : List Cell)
    (hlen : row.length = cols.length) :
    (rowDrop cols dropL row).length = (cols.filter (fun c => !decide (c ∈ dropL))).length := by
  induction cols generalizing row with
  | nil => cases row <;> simp [rowDrop]
  | cons c0 cs ih =>
    cases row with
    | nil => simp at hlen
    | cons v0 vs =>
      by_cases h : c0 ∈ dropL <;>
        simp [rowDrop, h, List.filter_cons, ih vs (by simpa using hlen)]

theorem rowCell_rowDrop (cols dropL : List String) (row : List Cell) (t : String)
    (hlen : row.length = cols.length) (ht : ¬ t ∈ dropL) :
    rowCell (cols.filter (fun c => !decide (c ∈ dropL))) (rowDrop cols dropL row) t =
      rowCell cols row t := by
  induction cols generalizing row with
  | nil =>
    cases row with
    | nil => rfl
    | cons v0 vs => simp at hlen
  | cons c0 cs ih =>
    cases row with
    | nil => simp at hlen
    | cons v0 vs =>
      by_cases hd : c0 ∈ dropL
      · have h0t : ¬ c0 = t := fun hh => ht (hh ▸ hd)
        simp [rowDrop, hd, List.filter_cons, rowCell, h0t, ih vs (by simpa using hlen)]
      · by_cases h0t : c0 = t
        · subst h0t
          simp [rowDrop, hd, List.filter_cons, rowCell, ht]
        · simp [rowDrop, hd, List.filter_cons, rowCell, h0t, ih vs (by simpa using hlen)]

/-! ## Relation-level lemmas -/

theorem cols_setColF_mem (r : Relation) (c : String) (f : Nat → List Cell → Cell)
    (hc : c ∈ r.cols) : (setColF r c f).cols = r.cols := by
  simp [setColF, hc]

theorem cols_setColF_not_mem (r : Relation) (c : String) (f : Nat → List Cell → Cell)
    (hc : ¬ c ∈ r.cols) : (setColF r c f).cols = r.cols ++ [c] := by
  simp [setColF, hc]

theorem mem_setColF_cols (r : Relation) (c : String) (f : Nat → List Cell → Cell) (a : String) :
    a ∈ (setColF r c f).cols ↔ a ∈ r.cols ∨ a = c := by
  by_cases hc : c ∈ r.cols
  · rw [cols_setColF_mem r c f hc]
    constructor
    · exact Or.inl
    · rintro (h | h)
      · exact h
      · exact h ▸ hc
  · rw [cols_setColF_not_mem r c f hc]
    simp

theorem rows_length_setColF (r : Relation) (c : String) (f : Nat → List Cell → Cell) :
    (setColF r c f).rows.length = r.rows.length := by
  by_cases hc : c ∈ r.cols <;> simp [setColF, hc, length_mapIdxFrom]

theorem getD_rows_setColF_mem (r : Relation) (c : String) (f : Nat → List Cell → Cell)
    (i : Nat) (hc : c ∈ r.cols) (hi : i < r.rows.length) :
    (setColF r c f).rows.getD i [] =
      rowSet r.cols (r.rows.getD i []) c (f i (r.rows.getD i [])) := by
  simp only [setColF, if_pos hc]
  rw [getD_mapIdxFrom _ 0 i _ [] [] hi]
  simp

theorem getD_rows_setColF_not_mem (r : Relation) (c : String) (f : Nat → List Cell → Cell)
    (i : Nat) (hc : ¬ c ∈ r.cols) (hi : i < r.rows.length) :
    (setColF r c f).rows.getD i [] = r.rows.getD i [] ++ [f i (r.rows.getD i [])] := by
  simp only [setColF, if_neg hc]
  rw [getD_mapIdxFrom _ 0 i _ [] [] hi]
  simp

theorem cellOf_setColF_self (r : Relation) (c : String) (f : Nat → List Cell → Cell)
    (i : Nat) (hrect : Rect r) (hi : i < r.rows.length) :
    cellOf (setColF r c f) c i = f i (r.rows.getD i []) := by
  have hlen : (r.rows.getD i []).length = r.cols.length := hrect _ (getD_mem _ _ _ hi)
  by_cases hc : c ∈ r.cols
  · unfold cellOf
    rw [cols_setColF_mem r c f hc, getD_rows_setColF_mem r c f i hc hi]
    exact rowCell_rowSet_self _ _ _ _ hc hlen
  · unfold cellOf
    rw [cols_setColF_not_mem r c f hc, getD_rows_setColF_not_mem r c f i hc hi]
    exact rowCell_append_new _ _ _ _ hlen hc

theorem cellOf_setColF_ne (r : Relation) (c : String) (f : Nat → List Cell → Cell)
    (i : Nat) (t : String) (ht : t ≠ c) (hrect : Rect r) (hi : i < r.rows.length) :
    cellOf (setColF r c f) t i = cellOf r t i := by
  have hlen : (r.rows.getD i []).length = r.cols.length := hrect _ (getD_mem _ _ _ hi)
  by_cases hc : c ∈ r.cols
  · unfold cellOf
    rw [cols_setColF_mem r c f hc, getD_rows_setColF_mem r c f i hc hi]
    exact rowCell_rowSet_ne _ _ _ _ _ ht
  · unfold cellOf
    rw [cols_setColF_not_mem r c f hc, getD_rows_setColF_not_mem r c f i hc hi]
    exact rowCell_append_old _ _ _ _ _ hlen ht

theorem rect_setColF (r : Relation) (c : String) (f : Nat → List Cell → Cell)
    (hrect : Rect r) : Rect (setColF r c f) := by
  intro row hrow
  by_cases hc : c ∈ r.cols
  · simp only [setColF, if_pos hc] at hrow ⊢
    obtain ⟨i, a, ha, heq⟩ := mem_mapIdxFrom hrow
    subst heq
    simp [rowSet_length, hrect a ha]
  · simp only [setColF, if_neg hc] at hrow ⊢
    obtain ⟨i, a, ha, heq⟩ := mem_mapIdxFrom hrow
    subst heq
    simp [hrect a ha]

theorem cols_fillnaCol (r : Relation) (c : String) (d : Cell) :
    (fillnaCol r c d).cols = r.cols := rfl

theorem rows_length_fillnaCol (r : Relation) (c : String) (d : Cell) :
    (fillnaCol r c d).rows.length = r.rows.length := by
  simp [fillnaCol]

theorem getD_rows_fillnaCol (r : Relation) (c : String) (d : Cell) (i : Nat)
    (hi : i < r.rows.length) :
    (fillnaCol r c d).rows.getD i [] = rowFillna r.cols (r.rows.getD i []) c d := by
  simp only [fillnaCol]
  exact getD_map _ _ _ [] [] hi

theorem rect_fillnaCol (r : Relation) (c : String) (d : Cell) (hrect : Rect r) :
    Rect (fillnaCol r c d) := by
  intro row hrow
  simp only [fillnaCol, List.mem_map] at hrow
  obtain ⟨a, ha, heq⟩ := hrow
  subst heq
  simp [fillnaCol, rowFillna_length, hrect a ha]

theorem mem_dropColsR_cols (r : Relation) (dropL : List String) (a : String) :
    a ∈ (dropColsR r dropL).cols ↔ a ∈ r.cols ∧ ¬ a ∈ dropL := by
  simp [dropColsR]

theorem rows_length_dropColsR (r : Relation) (dropL : List String) :
    (dropColsR r dropL).rows.length = r.rows.length := by
  simp [dropColsR]

theorem cellOf_dropColsR (r : Relation) (dropL : List String) (t : String) (i : Nat)
    (hrect : Rect r) (hi : i < r.rows.length) (ht : ¬ t ∈ dropL) :
    cellOf (dropColsR r dropL) t i = cellOf r t i := by
  have hlen : (r.rows.getD i []).length = r.cols.length := hrect _ (getD_mem _ _ _ hi)
  unfold cellOf
  simp only [dropColsR]
  rw [getD_map _ _ _ [] [] hi]
  exact rowCell_rowDrop _ _ _ _ hlen ht

/-! ## Lemmas about the stages of `process_merge_results` -/

theorem cellOf_def (r : Relation) (c : String) (i : Nat) :
    cellOf r c i = rowCell r.cols (r.rows.getD i []) c := rfl

theorem isOverlay_eq_true_iff (v : String) :
    isOverlay v = true ↔ v ≠ "" ∧ ¬ pyLower v ∈ ["nan", "", "none"] := by
  simp [isOverlay]

theorem mem_dropListOf (cols : List String) (value a : String)
    (ha : a ∈ dropListOf cols value) :
    a = "Remarks_x" ∨ a = "Remarks_y" ∨ (a = value ∧ value ≠ "Remarks") := by
  unfold dropListOf at ha
  by_cases hx : "Remarks_x" ∈ cols <;> by_cases hy : "Remarks_y" ∈ cols <;>
    simp only [hx, hy, if_true, if_false, ite_true, ite_false] at ha <;>
    split at ha <;> simp_all <;> tauto

theorem remarks_not_mem_dropListOf (cols : List String) (value : String) :
    ¬ "Remarks" ∈ dropListOf cols value := by
  intro h
  rcases mem_dropListOf cols value _ h with h1 | h1 | ⟨h1, h2⟩
  · exact absurd h1 (by decide)
  · exact absurd h1 (by decide)
  · exact h2 h1.symm

theorem pmrM1_cols (merged : Relation) (value : String) :
    (pmrM1 merged value).cols = merged.cols := by
  unfold pmrM1
  by_cases h : lookColOf merged.cols value ∈ merged.cols <;> simp [h, fillnaCol]

theorem pmrM1_rows_length (merged : Relation) (value : String) :
    (pmrM1 merged value).rows.length = merged.rows.length := by
  unfold pmrM1
  by_cases h : lookColOf merged.cols value ∈ merged.cols <;> simp [h, fillnaCol]

theorem pmrM1_rect (merged : Relation) (value : String) (hrect : Rect merged) :
    Rect (pmrM1 merged value) := by
  unfold pmrM1
  by_cases h : lookColOf merged.cols value ∈ merged.cols
  · simp only [if_pos h]
    exact rect_fillnaCol _ _ _ hrect
  · simp only [if_neg h]
    exact hrect

theorem cellOf_pmrM1_look (merged : Relation) (value : String) (i : Nat)
    (hrect : Rect merged) (hi : i < merged.rows.length)
    (hmem : lookColOf merged.cols value ∈ merged.cols) :
    cellOf (pmrM1 merged value) (lookColOf merged.cols value) i =
      (if cellOf merged (lookColOf merged.cols value) i = Cell.null then Cell.str ""
       else cellOf merged (lookColOf merged.cols value) i) := by
  have hlen : (merged.rows.getD i []).length = merged.cols.length :=
    hrect _ (getD_mem _ _ _ hi)
  unfold pmrM1
  rw [if_pos hmem]
  rw [cellOf_def, cols_fillnaCol, getD_rows_fillnaCol _ _ _ _ hi]
  exact rowCell_rowFillna_self _ _ _ _ hmem hlen

theorem cellOf_pmrM1_ne (merged : Relation) (value : String) (i : Nat) (t : String)
    (hne : t ≠ lookColOf merged.cols value) (hi : i < merged.rows.length) :
    cellOf (pmrM1 merged value) t i = cellOf merged t i := by
  unfold pmrM1
  by_cases h : lookColOf merged.cols value ∈ merged.cols
  · rw [if_pos h]
    rw [cellOf_def, cols_fillnaCol, getD_rows_fillnaCol _ _ _ _ hi]
    exact rowCell_rowFillna_ne _ _ _ _ _ hne
  · rw [if_neg h]

theorem pmrM2_rows_length (merged : Relation) (value : String) :
    (pmrM2 merged value).rows.length = merged.rows.length := by
  unfold pmrM2
  rw [rows_length_setColF, pmrM1_rows_length]

theorem pmrM2_rect (merged : Relation) (value : String) (hrect : Rect merged) :
    Rect (pmrM2 merged value) :=
  rect_setColF _ _ _ (pmrM1_rect _ _ hrect)

theorem mem_pmrM2_cols (merged : Relation) (value a : String) :
    a ∈ (pmrM2 merged value).cols ↔ a ∈ merged.cols ∨ a = "Remarks" := by
  unfold pmrM2
  rw [mem_setColF_cols]
  rw [pmrM1_cols]

theorem remarks_mem_pmrM2_cols (merged : Relation) (value : String) :
    "Remarks" ∈ (pmrM2 merged value).cols :=
  (mem_pmrM2_cols merged value _).mpr (Or.inr rfl)

theorem cellOf_pmrM2_remarks (merged : Relation) (value : String) (i : Nat)
    (hrect : Rect merged) (hi : i < merged.rows.length) :
    cellOf (pmrM2 merged value) "Remarks" i = Cell.str "" := by
  unfold pmrM2
  rw [cellOf_setColF_self _ _ _ _ (pmrM1_rect _ _ hrect)
    (by rw [pmrM1_rows_length]; exact hi)]

theorem cellOf_pmrM2_ne (merged : Relation) (value : String) (i : Nat) (t : String)
    (hne : t ≠ "Remarks") (hrect : Rect merged) (hi : i < merged.rows.length) :
    cellOf (pmrM2 merged value) t i = cellOf (pmrM1 merged value) t i := by
  unfold pmrM2
  exact cellOf_setColF_ne _ _ _ _ _ hne (pmrM1_rect _ _ hrect)
    (by rw [pmrM1_rows_length]; exact hi)

theorem pmrM3_cols (merged : Relation) (value : String) :
    (pmrM3 merged value).cols = (pmrM2 merged value).cols := rfl

theorem pmrM3_rows_length (merged : Relation) (value : String) :
    (pmrM3 merged value).rows.length = merged.rows.length := by
  unfold pmrM3
  simp [pmrM2_rows_length]

theorem pmrM3_rect (merged : Relation) (value : String) (hrect : Rect merged) :
    Rect (pmrM3 merged value) := by
  intro row hrow
  unfold pmrM3 at hrow ⊢
  simp only [List.mem_map] at hrow
  obtain ⟨a, ha, heq⟩ := hrow
  subst heq
  simp only [reconcileRow, rowSet_length]
  exact pmrM2_rect merged value hrect a ha

theorem getD_pmrM3 (merged : Relation) (value : String) (i : Nat)
    (hi : i < merged.rows.length) :
    (pmrM3 merged value).rows.getD i [] =
      reconcileRow (pmrM2 merged value).cols (origColOf merged.cols)
        (lookColOf merged.cols value) ((pmrM2 merged value).rows.getD i []) := by
  unfold pmrM3
  exact getD_map _ _ _ [] [] (by rw [pmrM2_rows_length]; exact hi)

theorem cellOf_pmrM3_remarks (merged : Relation) (value : String) (i : Nat)
    (hrect : Rect merged) (hi : i < merged.rows.length) :
    cellOf (pmrM3 merged value) "Remarks" i =
      Cell.str
        (if isOverlay (lookupValStr (pmrM2 merged value).cols (lookColOf merged.cols value)
              ((pmrM2 merged value).rows.getD i []))
         then lookupValStr (pmrM2 merged value).cols (lookColOf merged.cols value)
              ((pmrM2 merged value).rows.getD i [])
         else
           (if origColOf merged.cols ∈ (pmrM2 merged value).cols then
              pyStrip (cellToStr (rowCell (pmrM2 merged value).cols
                ((pmrM2 merged value).rows.getD i []) (origColOf merged.cols)))
            else "")) := by
  have hlen2 : ((pmrM2 merged value).rows.getD i []).length = (pmrM2 merged value).cols.length :=
    pmrM2_rect merged value hrect _ (getD_mem _ _ _ (by rw [pmrM2_rows_length]; exact hi))
  rw [cellOf_def, pmrM3_cols, getD_pmrM3 _ _ _ hi]
  unfold reconcileRow
  exact rowCell_rowSet_self _ _ _ _ (remarks_mem_pmrM2_cols merged value) hlen2

theorem cellOf_processMergeResults_remarks (merged : Relation) (value : String) (i : Nat)
    (hrect : Rect merged) (hi : i < merged.rows.length) :
    cellOf (processMergeResults merged value) "Remarks" i =
      cellOf (pmrM3 merged value) "Remarks" i := by
  unfold processMergeResults
  exact cellOf_dropColsR _ _ _ _ (pmrM3_rect _ _ hrect)
    (by rw [pmrM3_rows_length]; exact hi) (remarks_not_mem_dropListOf _ _)

theorem lookupValStr_pmrM2 (merged : Relation) (value : String) (i : Nat)
    (hrect : Rect merged) (hi : i < merged.rows.length) :
    lookupValStr (pmrM2 merged value).cols (lookColOf merged.cols value)
        ((pmrM2 merged value).rows.getD i []) =
      (if lookColOf merged.cols value = "Remarks" then ""
       else if lookColOf merged.cols value ∈ merged.cols then
         (if cellOf merged (lookColOf merged.cols value) i = Cell.null then ""
          else pyStrip (cellToStr (cellOf merged (lookColOf merged.cols value) i)))
       else "") := by
  unfold lookupValStr
  by_cases hLR : lookColOf merged.cols value = "Remarks"
  · rw [if_pos hLR]
    have hmem : lookColOf merged.cols value ∈ (pmrM2 merged value).cols := by
      rw [hLR]
      exact remarks_mem_pmrM2_cols merged value
    rw [if_pos hmem, ← cellOf_def, hLR, cellOf_pmrM2_remarks merged value i hrect hi]
    rfl
  · rw [if_neg hLR]
    by_cases hLc : lookColOf merged.cols value ∈ merged.cols
    · have hmem : lookColOf merged.cols value ∈ (pmrM2 merged value).cols :=
        (mem_pmrM2_cols merged value _).mpr (Or.inl hLc)
      rw [if_pos hmem, if_pos hLc, ← cellOf_def,
        cellOf_pmrM2_ne merged value i _ hLR hrect hi,
        cellOf_pmrM1_look merged value i hrect hi hLc]
      by_cases hnull : cellOf merged (lookColOf merged.cols value) i = Cell.null
      · rw [if_pos hnull, if_pos hnull]
        rfl
      · rw [if_neg hnull, if_neg hnull]
    · have hmem : ¬ lookColOf merged.cols value ∈ (pmrM2 merged value).cols := by
        rw [mem_pmrM2_cols]
        push_neg
        exact ⟨hLc, hLR⟩
      rw [if_neg hmem, if_neg hLc]

theorem origValStr_pmrM2 (merged : Relation) (value : String) (i : Nat)
    (hrect : Rect merged) (hi : i < merged.rows.length) :
    (if origColOf merged.cols ∈ (pmrM2 merged value).cols then
       pyStrip (cellToStr (rowCell (pmrM2 merged value).cols
         ((pmrM2 merged value).rows.getD i []) (origColOf merged.cols)))
     else "") =
      (if "Remarks_x" ∈ merged.cols then
         (if "Remarks_x" = lookColOf merged.cols value ∧
             cellOf merged "Remarks_x" i = Cell.null then ""
          else pyStrip (cellToStr (cellOf merged "Remarks_x" i)))
       else "") := by
  by_cases hx : "Remarks_x" ∈ merged.cols
  · have horig : origColOf merged.cols = "Remarks_x" := by simp [origColOf, hx]
    have hmem : origColOf merged.cols ∈ (pmrM2 merged value).cols := by
      rw [horig]
      exact (mem_pmrM2_cols merged value _).mpr (Or.inl hx)
    rw [if_pos hmem, if_pos hx, horig, ← cellOf_def,
      cellOf_pmrM2_ne merged value i _ (by decide) hrect hi]
    by_cases heq : "Remarks_x" = lookColOf merged.cols value
    · rw [heq]
      have hmem2 : lookColOf merged.cols value ∈ merged.cols := heq ▸ hx
      rw [cellOf_pmrM1_look merged value i hrect hi hmem2]
      by_cases hnull : cellOf merged (lookColOf merged.cols value) i = Cell.null
      · rw [if_pos hnull, if_pos ⟨rfl, hnull⟩]
        rfl
      · rw [if_neg hnull, if_neg (fun hcon => hnull hcon.2)]
    · rw [cellOf_pmrM1_ne merged value i _ heq hi,
        if_neg (fun hcon => heq hcon.1)]
  · have horig : origColOf merged.cols = "Remarks" := by simp [origColOf, hx]
    have hmem : origColOf merged.cols ∈ (pmrM2 merged value).cols := by
      rw [horig]
      exact remarks_mem_pmrM2_cols merged value
    rw [if_pos hmem, if_neg hx, horig, ← cellOf_def,
      cellOf_pmrM2_remarks merged value i hrect hi]
    rfl

/-! ## Claim theorems -/

/-- Claim C1, counterexample to the claim as stated: in the merged
relation `mergedC1` the looked-up value (column "Notes") strips to
"nan", a null-sentinel, and the original remark strips to "pending",
yet the final Remarks value is the empty string, not the original
remark: `process_merge_results` blanks the plain "Remarks" column
before the reconciliation loop reads it. -/
theorem claim_C1_counterexample :
    pyStrip (cellToStr (cellOf mergedC1 "Notes" 0)) = "nan" ∧
    pyStrip (cellToStr (cellOf mergedC1 "Remarks" 0)) = "pending" ∧
    cellOf (processMergeResults mergedC1 "Notes") "Remarks" 0 = Cell.str "" ∧
    Cell.str "" ≠ Cell.str "pending" :=
  ⟨rfl, rfl, rfl, by decide⟩

/-- Claim C1 (amended): for every merged row, the final Remarks value
follows the overlay policy computed over the state after the looked-up
column's `fillna('')` and after `Remarks` has been blanked: the
looked-up value (stripped; read as `""` when its column is the blanked
"Remarks" itself, or is absent) wins when non-empty and not a
null-sentinel ("nan"/""/"none" case-insensitive); otherwise the final
value is the stripped original remark read from `Remarks_x` when that
collision column exists, and the empty string otherwise (because the
plain "Remarks" column was blanked before being read back). -/
theorem claim_C1_overlay_amended (merged : Relation) (value : String) (i : Nat)
    (hrect : Rect merged) (hi : i < merged.rows.length) :
    cellOf (processMergeResults merged value) "Remarks" i =
      Cell.str
        (if (if lookColOf merged.cols value = "Remarks" then ""
             else if lookColOf merged.cols value ∈ merged.cols then
               (if cellOf merged (lookColOf merged.cols value) i = Cell.null then ""
                else pyStrip (cellToStr (cellOf merged (lookColOf merged.cols value) i)))
             else "") ≠ "" ∧
            ¬ pyLower
              (if lookColOf merged.cols value = "Remarks" then ""
               else if lookColOf merged.cols value ∈ merged.cols then
                 (if cellOf merged (lookColOf merged.cols value) i = Cell.null then ""
                  else pyStrip (cellToStr (cellOf merged (lookColOf merged.cols value) i)))
               else "") ∈ ["nan", "", "none"]
         then
           (if lookColOf merged.cols value = "Remarks" then ""
            else if lookColOf merged.cols value ∈ merged.cols then
              (if cellOf merged (lookColOf merged.cols value) i = Cell.null then ""
               else pyStrip (cellToStr (cellOf merged (lookColOf merged.cols value) i)))
            else "")
         else
           (if "Remarks_x" ∈ merged.cols then
              (if "Remarks_x" = lookColOf merged.cols value ∧
                  cellOf merged "Remarks_x" i = Cell.null then ""
               else pyStrip (cellToStr (cellOf merged "Remarks_x" i)))
            else "")) := by
  rw [cellOf_processMergeResults_remarks merged value i hrect hi,
    cellOf_pmrM3_remarks merged value i hrect hi,
    lookupValStr_pmrM2 merged value i hrect hi,
    origValStr_pmrM2 merged value i hrect hi]
  congr 1
  exact if_congr (isOverlay_eq_true_iff _) rfl rfl

/-- Claim C1, witness: on the standard collision shape the looked-up
value "resolved" survives to the final Remarks column. -/
theorem claim_C1_witness :
    cellOf (processMergeResults mergedW1 "Remarks") "Remarks" 0 = Cell.str "resolved" := by
  have h := claim_C1_overlay_amended mergedW1 "Remarks" 0 (by decide) (by decide)
  exact h.trans (by decide)

theorem mergeRowsGo_unique (df lkp : Relation) (key value : String) (rows : List (List Cell))
    (h1 : ∀ row ∈ rows, (matchingRows lkp key (rowCell df.cols row key)).length ≤ 1) :
    (mergeRowsGo df lkp key value rows).length = rows.length ∧
    ∀ i, i < rows.length →
      ∃ c, (mergeRowsGo df lkp key value rows).getD i [] = rows.getD i [] ++ [c] := by
  induction rows with
  | nil =>
    refine ⟨rfl, ?_⟩
    intro i hi
    simp at hi
  | cons row rest ih =>
    have hrow := h1 row (List.mem_cons_self _ _)
    have hrest := ih (fun r hr => h1 r (List.mem_cons_of_mem _ hr))
    rcases hm : matchingRows lkp key (rowCell df.cols row key) with _ | ⟨lr, ms2⟩
    · constructor
      · simp [mergeRowsGo, hm, hrest.1]
      · intro i hi
        cases i with
        | zero => exact ⟨Cell.null, by simp [mergeRowsGo, hm]⟩
        | succ i =>
          obtain ⟨c, hc⟩ := hrest.2 i (by simpa using hi)
          refine ⟨c, ?_⟩
          simp only [mergeRowsGo, hm, List.singleton_append, List.getD_cons_succ]
          exact hc
    · have hms2 : ms2 = [] := by
        rw [hm] at hrow
        have : ms2.length = 0 := by
          simp only [List.length_cons] at hrow
          omega
        exact List.length_eq_zero.mp this
      subst hms2
      constructor
      · simp [mergeRowsGo, hm, hrest.1]
      · intro i hi
        cases i with
        | zero => exact ⟨rowCell lkp.cols lr value, by simp [mergeRowsGo, hm]⟩
        | succ i =>
          obtain ⟨c, hc⟩ := hrest.2 i (by simpa using hi)
          refine ⟨c, ?_⟩
          simp only [mergeRowsGo, hm, List.map_cons, List.map_nil, List.singleton_append,
            List.getD_cons_succ]
          exact hc

/-- Claim C2, counterexample to the claim as stated: with a duplicated
key value in the secondary relation, the left merge emits one row per
matching pair, so a one-row primary relation yields a two-row result,
not first-match-wins with the primary row count. -/
theorem claim_C2_counterexample :
    optRowCount (performMerge dfC2 lkpC2 "Case Number" "Remarks") = some 2 ∧
    dfC2.rows.length = 1 :=
  ⟨rfl, rfl⟩

/-- Claim C2 (amended): provided each primary key value matches at most
one secondary row, the lookup merge succeeds, has exactly as many rows
as the primary relation, and retains every primary row (each merged row
starts with the corresponding primary row); with duplicate secondary
key values the merge instead emits one row per matching pair. -/
theorem claim_C2_left_join_amended (df lkp : Relation) (key value : String)
    (hrect : Rect df)
    (hk1 : key ∈ df.cols) (hk2 : key ∈ lkp.cols) (hv : value ∈ lkp.cols) (hvk : value ≠ key)
    (huniq : ∀ row ∈ df.rows, (matchingRows lkp key (rowCell df.cols row key)).length ≤ 1) :
    performMerge df lkp key value = some (mergeLeft df lkp key value) ∧
    (mergeLeft df lkp key value).rows.length = df.rows.length ∧
    ∀ i, i < df.rows.length →
      ((mergeLeft df lkp key value).rows.getD i []).take df.cols.length =
        df.rows.getD i [] := by
  have hgo := mergeRowsGo_unique df lkp key value df.rows huniq
  refine ⟨?_, hgo.1, ?_⟩
  · unfold performMerge
    rw [if_pos ⟨hk1, hk2, hv, hvk⟩]
  · intro i hi
    obtain ⟨c, hc⟩ := hgo.2 i hi
    show ((mergeRowsGo df lkp key value df.rows).getD i []).take df.cols.length = _
    rw [hc]
    have hlen : (df.rows.getD i []).length = df.cols.length := hrect _ (getD_mem _ _ _ hi)
    rw [← hlen]
    exact List.take_left _ _

/-- Claim C2, witness: with unique secondary keys, a one-row primary
relation merges to exactly one row. -/
theorem claim_C2_witness :
    performMerge dfC2 lkpW2 "Case Number" "Remarks" =
      some (mergeLeft dfC2 lkpW2 "Case Number" "Remarks") ∧
    (mergeLeft dfC2 lkpW2 "Case Number" "Remarks").rows.length = dfC2.rows.length := by
  have h := claim_C2_left_join_amended dfC2 lkpW2 "Case Number" "Remarks"
    (by decide) (by decide) (by decide) (by decide) (by decide) (by decide)
  exact ⟨h.1, h.2.1⟩

/-- Claim C3, counterexample to the claim as stated: the key "100.05",
whose ".0" is not trailing, is rewritten to "1005" by the key cleaning
(`str.replace` removes every occurrence of ".0", not only a trailing
artifact), so the transform does not strip only a trailing ".0". -/
theorem claim_C3_counterexample :
    cellOf (cleanKeyColumn relC3 "Case Number") "Case Number" 0 = Cell.str "1005" ∧
    Cell.str "1005" ≠ Cell.str "100.05" :=
  ⟨rfl, by decide⟩

/-- Claim C3 (amended): key cleaning casts the key cell to text and
removes every occurrence of the substring ".0" (left-to-right,
non-overlapping), leaving all other columns unchanged; consequently
"123.0" normalizes to "123" (so it matches "123" from the other
relation), while "100.05" is lossily rewritten to "1005". -/
theorem claim_C3_normalization_amended (df : Relation) (key : String) (i : Nat)
    (hrect : Rect df) (hi : i < df.rows.length) :
    cellOf (cleanKeyColumn df key) key i =
      Cell.str (stripDotZeroStr (cellToStr (cellOf df key i))) ∧
    (∀ c, c ≠ key → cellOf (cleanKeyColumn df key) c i = cellOf df c i) ∧
    stripDotZeroStr "123.0" = "123" ∧
    stripDotZeroStr "100.05" = "1005" := by
  refine ⟨?_, ?_, rfl, rfl⟩
  · unfold cleanKeyColumn
    rw [cellOf_setColF_self _ _ _ _ hrect hi]
    rfl
  · intro c hc
    unfold cleanKeyColumn
    exact cellOf_setColF_ne _ _ _ _ _ hc hrect hi

/-- Claim C3, witness: "123.0" normalizes to "123" and the non-key
column is untouched. -/
theorem claim_C3_witness :
    cellOf (cleanKeyColumn relW3 "Case Number") "Case Number" 0 = Cell.str "123" ∧
    cellOf (cleanKeyColumn relW3 "Case Number") "Remarks" 0 = Cell.str "r" := by
  have h := claim_C3_normalization_amended relW3 "Case Number" 0 (by decide) (by decide)
  exact ⟨h.1.trans (by decide), (h.2.1 "Remarks" (by decide)).trans rfl⟩

/-- Claim C4 (confirmed): when key-column resolution fails — the
conventional "Case Number" is absent from the lookup relation and the
prompt yields no valid column, or the resolved key is absent from the
primary relation — `apply_vlookup` returns the primary relation
unchanged (so the original remarks are retained as-is); the total
embedding raises nothing. -/
theorem claim_C4_unresolved_key (df lkp : Relation) (askKey askValue : Option String)
    (hfail :
      (if "Case Number" ∈ lkp.cols then "Case Number"
       else promptUserColumn askKey lkp.cols) = "" ∨
      ¬ (if "Case Number" ∈ lkp.cols then "Case Number"
         else promptUserColumn askKey lkp.cols) ∈ df.cols) :
    applyVlookup df (some lkp) askKey askValue = df := by
  rcases hfail with h | h
  · simp [applyVlookup, applyVlookupWith, determineLookupColumns, h]
  · by_cases h0 : (if "Case Number" ∈ lkp.cols then "Case Number"
        else promptUserColumn askKey lkp.cols) = ""
    · simp [applyVlookup, applyVlookupWith, determineLookupColumns, h0]
    · simp [applyVlookup, applyVlookupWith, determineLookupColumns, h0, h]

/-- Claim C4, witness: the lookup relation has no "Case Number" column
and the prompt is cancelled, so the primary relation comes back
unchanged. -/
theorem claim_C4_witness :
    applyVlookup dfW4 (some lkpW4) none none = dfW4 :=
  claim_C4_unresolved_key dfW4 lkpW4 none none (Or.inl (by decide))

/-! ## Lemmas about the stages of `prepare_dataframe` -/

theorem rect_dropColsR (r : Relation) (dropL : List String) (hrect : Rect r) :
    Rect (dropColsR r dropL) := by
  intro row hrow
  simp only [dropColsR, List.mem_map] at hrow
  obtain ⟨a, ha, heq⟩ := hrow
  subst heq
  exact rowDrop_length_cols _ _ _ (hrect a ha)

theorem rowCell_map_names (names : List String) (f : String → Cell) (c : String)
    (hc : c ∈ names) :
    rowCell names (names.map f) c = f c := by
  induction names with
  | nil => simp at hc
  | cons n ns ih =>
    by_cases h : n = c
    · subst h
      simp [rowCell]
    · have hc2 : c ∈ ns := by
        rcases List.mem_cons.mp hc with h1 | h1
        · exact absurd h1.symm h
        · exact h1
      simp [rowCell, h, ih hc2]

theorem cellOf_projectR (r : Relation) (selected : List String) (c : String) (i : Nat)
    (hc : c ∈ selected) (hi : i < r.rows.length) :
    cellOf (projectR r selected) c i = cellOf r c i := by
  unfold projectR cellOf
  simp only
  rw [getD_map _ _ _ [] [] hi]
  exact rowCell_map_names selected _ c hc

theorem prepSLA_rows_length (parse : Cell → Option Int) (now : Int) (df : Relation) :
    (prepSLA parse now df).rows.length = df.rows.length :=
  rows_length_setColF _ _ _

theorem prepSLA_rect (parse : Cell → Option Int) (now : Int) (df : Relation)
    (hrect : Rect df) : Rect (prepSLA parse now df) :=
  rect_setColF _ _ _ hrect

theorem mem_prepSLA_cols (parse : Cell → Option Int) (now : Int) (df : Relation) (a : String) :
    a ∈ (prepSLA parse now df).cols ↔ a ∈ df.cols ∨ a = "SLA" :=
  mem_setColF_cols _ _ _ _

theorem cellOf_prepSLA_sla (parse : Cell → Option Int) (now : Int) (df : Relation) (i : Nat)
    (hrect : Rect df) (hi : i < df.rows.length) :
    cellOf (prepSLA parse now df) "SLA" i =
      Cell.int (slaOf parse now (cellOf df "Created Date" i)) := by
  unfold prepSLA
  rw [cellOf_setColF_self _ _ _ _ hrect hi]
  rfl

theorem cellOf_prepSLA_ne (parse : Cell → Option Int) (now : Int) (df : Relation) (i : Nat)
    (t : String) (ht : t ≠ "SLA") (hrect : Rect df) (hi : i < df.rows.length) :
    cellOf (prepSLA parse now df) t i = cellOf df t i := by
  unfold prepSLA
  exact cellOf_setColF_ne _ _ _ _ _ ht hrect hi

theorem prepStatus_rows_length (parse : Cell → Option Int) (now : Int) (df : Relation) :
    (prepStatus parse now df).rows.length = df.rows.length := by
  unfold prepStatus
  rw [rows_length_setColF, prepSLA_rows_length]

theorem prepStatus_rect (parse : Cell → Option Int) (now : Int) (df : Relation)
    (hrect : Rect df) : Rect (prepStatus parse now df) :=
  rect_setColF _ _ _ (prepSLA_rect _ _ _ hrect)

theorem mem_prepStatus_cols (parse : Cell → Option Int) (now : Int) (df : Relation) (a : String) :
    a ∈ (prepStatus parse now df).cols ↔
      (a ∈ df.cols ∨ a = "SLA") ∨ a = "LineItem Status" := by
  unfold prepStatus
  rw [mem_setColF_cols]
  rw [mem_prepSLA_cols]

theorem mem_prepStatus_cols_iff (parse : Cell → Option Int) (now : Int) (df : Relation)
    (c : String) (h1 : c ≠ "SLA") (h2 : c ≠ "LineItem Status") :
    c ∈ (prepStatus parse now df).cols ↔ c ∈ df.cols := by
  rw [mem_prepStatus_cols]
  simp [h1, h2]

theorem cellOf_prepStatus_status (parse : Cell → Option Int) (now : Int) (df : Relation)
    (i : Nat) (hrect : Rect df) (hi : i < df.rows.length) :
    cellOf (prepStatus parse now df) "LineItem Status" i =
      statusNorm (cellOf (prepSLA parse now df) "LineItem Status" i) := by
  unfold prepStatus
  rw [cellOf_setColF_self _ _ _ _ (prepSLA_rect _ _ _ hrect)
    (by rw [prepSLA_rows_length]; exact hi)]
  rfl

theorem cellOf_prepStatus_ne (parse : Cell → Option Int) (now : Int) (df : Relation)
    (i : Nat) (t : String) (ht : t ≠ "LineItem Status") (hrect : Rect df)
    (hi : i < df.rows.length) :
    cellOf (prepStatus parse now df) t i = cellOf (prepSLA parse now df) t i := by
  unfold prepStatus
  exact cellOf_setColF_ne _ _ _ _ _ ht (prepSLA_rect _ _ _ hrect)
    (by rw [prepSLA_rows_length]; exact hi)

theorem prepRemarks_rows_length (parse : Cell → Option Int) (now : Int)
    (fallback : Nat → String) (df : Relation) :
    (prepRemarks parse now fallback df).rows.length = df.rows.length := by
  unfold prepRemarks
  by_cases h1 : "Technician Remarks" ∈ (prepStatus parse now df).cols
  · simp [h1, rows_length_dropColsR, rows_length_setColF, prepStatus_rows_length]
  · by_cases h2 : "Remarks" ∈ (prepStatus parse now df).cols <;>
      simp [h1, h2, rows_length_setColF, prepStatus_rows_length]

theorem mem_prepRemarks_cols_of (parse : Cell → Option Int) (now : Int)
    (fallback : Nat → String) (df : Relation) (c : String)
    (hc1 : c ≠ "Technician Remarks")
    (h : c ∈ (prepStatus parse now df).cols ∨ c = "Remarks") :
    c ∈ (prepRemarks parse now fallback df).cols := by
  unfold prepRemarks
  by_cases h1 : "Technician Remarks" ∈ (prepStatus parse now df).cols
  · rw [if_pos h1, mem_dropColsR_cols]
    refine ⟨(mem_setColF_cols _ _ _ _).mpr h, ?_⟩
    simp [hc1]
  · rw [if_neg h1]
    by_cases h2 : "Remarks" ∈ (prepStatus parse now df).cols
    · rw [if_pos h2]
      exact (mem_setColF_cols _ _ _ _).mpr h
    · rw [if_neg h2]
      exact (mem_setColF_cols _ _ _ _).mpr h

theorem mem_prepRemarks_cols_iff (parse : Cell → Option Int) (now : Int)
    (fallback : Nat → String) (df : Relation) (c : String)
    (hc1 : c ≠ "Technician Remarks") (hc2 : c ≠ "Remarks") :
    c ∈ (prepRemarks parse now fallback df).cols ↔ c ∈ (prepStatus parse now df).cols := by
  unfold prepRemarks
  by_cases h1 : "Technician Remarks" ∈ (prepStatus parse now df).cols
  · rw [if_pos h1, mem_dropColsR_cols, mem_setColF_cols]
    simp [hc1, hc2]
  · rw [if_neg h1]
    by_cases h2 : "Remarks" ∈ (prepStatus parse now df).cols
    · rw [if_pos h2, mem_setColF_cols]
      simp [hc2]
    · rw [if_neg h2, mem_setColF_cols]
      simp [hc2]

theorem cellOf_prepRemarks_ne (parse : Cell → Option Int) (now : Int)
    (fallback : Nat → String) (df : Relation) (i : Nat) (t : String)
    (h3 : t ≠ "Remarks") (h4 : t ≠ "Technician Remarks") (hrect : Rect df)
    (hi : i < df.rows.length) :
    cellOf (prepRemarks parse now fallback df) t i = cellOf (prepStatus parse now df) t i := by
  have hrectS : Rect (prepStatus parse now df) := prepStatus_rect _ _ _ hrect
  have hiS : i < (prepStatus parse now df).rows.length := by
    rw [prepStatus_rows_length]; exact hi
  unfold prepRemarks
  by_cases h1 : "Technician Remarks" ∈ (prepStatus parse now df).cols
  · rw [if_pos h1]
    rw [cellOf_dropColsR _ _ _ _ (rect_setColF _ _ _ hrectS)
      (by rw [rows_length_setColF]; exact hiS) (by simp [h4])]
    exact cellOf_setColF_ne _ _ _ _ _ h3 hrectS hiS
  · rw [if_neg h1]
    by_cases h2 : "Remarks" ∈ (prepStatus parse now df).cols
    · rw [if_pos h2]
      exact cellOf_setColF_ne _ _ _ _ _ h3 hrectS hiS
    · rw [if_neg h2]
      exact cellOf_setColF_ne _ _ _ _ _ h3 hrectS hiS

theorem prepareDataframe_ok (parse : Cell → Option Int) (now : Int) (fallback : Nat → String)
    (df : Relation) (hC : "Created Date" ∈ df.cols) (hS : "LineItem Status" ∈ df.cols)
    (hreq : ∀ c ∈ requiredInput, c ∈ df.cols) :
    prepareDataframe parse now fallback df =
      Except.ok (projectR (prepRemarks parse now fallback df)
        (requiredProjection ++ ["Remarks"])) := by
  have hS1 : "LineItem Status" ∈ (prepSLA parse now df).cols :=
    (mem_prepSLA_cols _ _ _ _).mpr (Or.inl hS)
  have hmem : ∀ c ∈ (requiredProjection ++ ["Remarks"]),
      c ∈ (prepRemarks parse now fallback df).cols := by
    intro c hc
    simp only [requiredProjection, List.cons_append, List.nil_append] at hc
    fin_cases hc
    all_goals first
      | exact mem_prepRemarks_cols_of _ _ _ _ _ (by decide) (Or.inr rfl)
      | exact mem_prepRemarks_cols_of _ _ _ _ _ (by decide)
          (Or.inl ((mem_prepStatus_cols _ _ _ _).mpr (Or.inl (Or.inr rfl))))
      | exact mem_prepRemarks_cols_of _ _ _ _ _ (by decide)
          (Or.inl ((mem_prepStatus_cols _ _ _ _).mpr (Or.inr rfl)))
      | exact mem_prepRemarks_cols_of _ _ _ _ _ (by decide)
          (Or.inl ((mem_prepStatus_cols_iff _ _ _ _ (by decide) (by decide)).mpr
            (hreq _ (by decide))))
  have hmiss : missingFrom (prepRemarks parse now fallback df).cols
      (requiredProjection ++ ["Remarks"]) = [] := by
    unfold missingFrom
    rw [List.filter_eq_nil_iff]
    intro a ha
    simp [hmem a ha]
  unfold prepareDataframe
  rw [if_pos hC, if_pos hS1, if_pos hmiss]

/-- Claim C5 (confirmed): for every input row the derived SLA metric is
the floor of the whole-day difference between the injected "now" and
the parsed creation timestamp; rows with a missing (null) or
unparseable creation cell get age 0; and whenever the parsed timestamp
is not later than "now" the age is non-negative. -/
theorem claim_C5_age_metric (parse : Cell → Option Int) (now : Int) (fallback : Nat → String)
    (df : Relation) (hrect : Rect df)
    (hC : "Created Date" ∈ df.cols) (hS : "LineItem Status" ∈ df.cols)
    (hreq : ∀ c ∈ requiredInput, c ∈ df.cols) :
    ∃ out, prepareDataframe parse now fallback df = Except.ok out ∧
      (∀ i, i < df.rows.length →
        cellOf out "SLA" i = Cell.int (slaOf parse now (cellOf df "Created Date" i))) ∧
      (∀ i t, i < df.rows.length → cellOf df "Created Date" i ≠ Cell.null →
        parse (cellOf df "Created Date" i) = some t →
        cellOf out "SLA" i = Cell.int ((now - t).fdiv 86400)) ∧
      (∀ i, i < df.rows.length →
        (cellOf df "Created Date" i = Cell.null ∨ parse (cellOf df "Created Date" i) = none) →
        cellOf out "SLA" i = Cell.int 0) ∧
      (∀ i t, i < df.rows.length → cellOf df "Created Date" i ≠ Cell.null →
        parse (cellOf df "Created Date" i) = some t → t ≤ now →
        cellOf out "SLA" i = Cell.int ((now - t).fdiv 86400) ∧
          0 ≤ (now - t).fdiv 86400) := by
  have hsla : ∀ i, i < df.rows.length →
      cellOf (projectR (prepRemarks parse now fallback df)
          (requiredProjection ++ ["Remarks"])) "SLA" i =
        Cell.int (slaOf parse now (cellOf df "Created Date" i)) := by
    intro i hi
    rw [cellOf_projectR _ _ _ _ (by decide) (by rw [prepRemarks_rows_length]; exact hi),
      cellOf_prepRemarks_ne _ _ _ _ _ _ (by decide) (by decide) hrect hi,
      cellOf_prepStatus_ne _ _ _ _ _ (by decide) hrect hi,
      cellOf_prepSLA_sla _ _ _ _ hrect hi]
  refine ⟨_, prepareDataframe_ok parse now fallback df hC hS hreq, hsla, ?_, ?_, ?_⟩
  · intro i t hi hnn hp
    rw [hsla i hi]
    unfold slaOf
    rw [if_neg hnn, hp]
  · intro i hi hcase
    rw [hsla i hi]
    unfold slaOf
    rcases hcase with h | h
    · rw [if_pos h]
    · by_cases hnull : cellOf df "Created Date" i = Cell.null
      · rw [if_pos hnull]
      · rw [if_neg hnull, h]
  · intro i t hi hnn hp hle
    refine ⟨?_, Int.fdiv_nonneg (by omega) (by norm_num)⟩
    rw [hsla i hi]
    unfold slaOf
    rw [if_neg hnn, hp]

/-- Claim C5, witness: with "now" three days and seven seconds after
the parsed creation date, the SLA cell of the prepared relation is 3. -/
theorem claim_C5_witness :
    (match prepareDataframe parseW5 259207 fallbackW dfW5 with
     | Except.ok out => cellOf out "SLA" 0
     | Except.error _ => Cell.null) = Cell.int 3 := by
  obtain ⟨out, hok, hsla, -, -, -⟩ :=
    claim_C5_age_metric parseW5 259207 fallbackW dfW5 (by decide) (by decide) (by decide)
      (by decide)
  rw [hok]
  show cellOf out "SLA" 0 = Cell.int 3
  rw [hsla 0 (by decide)]
  decide

/-- Claim C6, counterexample to the claim as stated: a relation without
the status column makes normalization fail (the source raises a
`KeyError`) instead of defaulting the column to "New"; and a present
but empty-string status cell passes through as "" rather than becoming
"New" (`fillna` only replaces nulls). -/
theorem claim_C6_counterexample :
    prepareDataframe parseNone 0 fallbackW relC6absent = Except.error ["LineItem Status"] ∧
    (match prepareDataframe parseNone 0 fallbackW relC6empty with
     | Except.ok out => cellOf out "LineItem Status" 0
     | Except.error _ => Cell.null) = Cell.str "" ∧
    Cell.str "" ≠ Cell.str "New" :=
  ⟨rfl, rfl, by decide⟩

/-- Claim C6 (amended): when the status column is present, every null
cell becomes "New" and every non-null cell (the empty string included)
passes through as text; when the status column is absent, normalization
fails with an error naming it instead of defaulting it. -/
theorem claim_C6_status_amended (parse : Cell → Option Int) (now : Int)
    (fallback : Nat → String) :
    (∀ df : Relation, Rect df → "Created Date" ∈ df.cols → "LineItem Status" ∈ df.cols →
      (∀ c ∈ requiredInput, c ∈ df.cols) →
      ∃ out, prepareDataframe parse now fallback df = Except.ok out ∧
        ∀ i, i < df.rows.length →
          cellOf out "LineItem Status" i =
            (if cellOf df "LineItem Status" i = Cell.null then Cell.str "New"
             else Cell.str (cellToStr (cellOf df "LineItem Status" i)))) ∧
    (∀ df : Relation, "Created Date" ∈ df.cols → ¬ "LineItem Status" ∈ df.cols →
      prepareDataframe parse now fallback df = Except.error ["LineItem Status"]) := by
  constructor
  · intro df hrect hC hS hreq
    refine ⟨_, prepareDataframe_ok parse now fallback df hC hS hreq, ?_⟩
    intro i hi
    rw [cellOf_projectR _ _ _ _ (by decide) (by rw [prepRemarks_rows_length]; exact hi),
      cellOf_prepRemarks_ne _ _ _ _ _ _ (by decide) (by decide) hrect hi,
      cellOf_prepStatus_status _ _ _ _ hrect hi,
      cellOf_prepSLA_ne _ _ _ _ _ (by decide) hrect hi]
    cases hX : cellOf df "LineItem Status" i with
    | null => simp [statusNorm]
    | str s => simp [statusNorm, cellToStr]
    | int n => simp [statusNorm, cellToStr]
  · intro df hC hS
    have hS1 : ¬ "LineItem Status" ∈ (prepSLA parse now df).cols := by
      rw [mem_prepSLA_cols]
      push_neg
      exact ⟨hS, by decide⟩
    unfold prepareDataframe
    rw [if_pos hC, if_neg hS1]

/-- Claim C6, witness: a null status cell is normalized to "New". -/
theorem claim_C6_witness :
    (match prepareDataframe parseNone 0 fallbackW relW6 with
     | Except.ok out => cellOf out "LineItem Status" 0
     | Except.error _ => Cell.null) = Cell.str "New" := by
  obtain ⟨out, hok, hcell⟩ :=
    (claim_C6_status_amended parseNone 0 fallbackW).1 relW6 (by decide) (by decide)
      (by decide) (by decide)
  rw [hok]
  show cellOf out "LineItem Status" 0 = Cell.str "New"
  rw [hcell 0 (by decide)]
  decide

/-- Claim C7 (confirmed): reading a delimited source tries the
candidate encodings in their fixed order; the first candidate that
decodes successfully determines the returned relation, and when every
candidate fails to decode the reader returns no relation instead of
raising. -/
theorem claim_C7_encoding_fallback (tryRead : String → Option Relation) :
    ((∀ e ∈ encodingCandidates, tryRead e = none) → readCsvWithFallback tryRead = none) ∧
    (∀ i, i < encodingCandidates.length → ∀ r : Relation,
      (∀ j, j < i → tryRead (encodingCandidates.getD j "") = none) →
      tryRead (encodingCandidates.getD i "") = some r →
      readCsvWithFallback tryRead = some r) := by
  constructor
  · intro hall
    have h1 := hall "utf-8" (by decide)
    have h2 := hall "latin1" (by decide)
    have h3 := hall "utf-16" (by decide)
    simp [readCsvWithFallback, encodingCandidates, tryEncodings, h1, h2, h3]
  · intro i hi r hprev hcur
    have hi3 : i < 3 := by simpa [encodingCandidates] using hi
    interval_cases i
    · simp only [encodingCandidates, List.getD_cons_zero, List.getD_cons_succ] at hcur
      simp [readCsvWithFallback, encodingCandidates, tryEncodings, hcur]
    · have hp0 := hprev 0 (by omega)
      simp only [encodingCandidates, List.getD_cons_zero, List.getD_cons_succ] at hp0 hcur
      simp [readCsvWithFallback, encodingCandidates, tryEncodings, hp0, hcur]
    · have hp0 := hprev 0 (by omega)
      have hp1 := hprev 1 (by omega)
      simp only [encodingCandidates, List.getD_cons_zero, List.getD_cons_succ] at hp0 hp1 hcur
      simp [readCsvWithFallback, encodingCandidates, tryEncodings, hp0, hp1, hcur]

/-- Claim C7, witness: with utf-8 failing and latin1 succeeding, the
latin1 relation is returned. -/
theorem claim_C7_witness : readCsvWithFallback tryReadW7 = some relW7 :=
  (claim_C7_encoding_fallback tryReadW7).2 1 (by decide) relW7
    (fun j hj => by interval_cases j; rfl) rfl

theorem missing_prepRemarks_eq (parse : Cell → Option Int) (now : Int)
    (fallback : Nat → String) (df : Relation) :
    missingFrom (prepRemarks parse now fallback df).cols (requiredProjection ++ ["Remarks"]) =
      missingFrom df.cols requiredInput := by
  have hS : "SLA" ∈ (prepRemarks parse now fallback df).cols :=
    mem_prepRemarks_cols_of _ _ _ _ _ (by decide)
      (Or.inl ((mem_prepStatus_cols _ _ _ _).mpr (Or.inl (Or.inr rfl))))
  have hL : "LineItem Status" ∈ (prepRemarks parse now fallback df).cols :=
    mem_prepRemarks_cols_of _ _ _ _ _ (by decide)
      (Or.inl ((mem_prepStatus_cols _ _ _ _).mpr (Or.inr rfl)))
  have hR : "Remarks" ∈ (prepRemarks parse now fallback df).cols :=
    mem_prepRemarks_cols_of _ _ _ _ _ (by decide) (Or.inr rfl)
  have e : ∀ c : String, c ≠ "SLA" → c ≠ "LineItem Status" → c ≠ "Remarks" →
      c ≠ "Technician Remarks" →
      ((c ∈ (prepRemarks parse now fallback df).cols) ↔ c ∈ df.cols) := by
    intro c h1 h2 h3 h4
    rw [mem_prepRemarks_cols_iff _ _ _ _ _ h4 h3, mem_prepStatus_cols_iff _ _ _ _ h1 h2]
  have e1 := e "Case Number" (by decide) (by decide) (by decide) (by decide)
  have e2 := e "Customer Name" (by decide) (by decide) (by decide) (by decide)
  have e3 := e "Street" (by decide) (by decide) (by decide) (by decide)
  have e4 := e "Zip/Postal Code" (by decide) (by decide) (by decide) (by decide)
  have e5 := e "Customer Complaint" (by decide) (by decide) (by decide) (by decide)
  have e6 := e "Product Description" (by decide) (by decide) (by decide) (by decide)
  have e7 := e "Technician Name" (by decide) (by decide) (by decide) (by decide)
  simp only [missingFrom, requiredProjection, requiredInput, List.cons_append,
    List.nil_append, List.filter, e1, e2, e3, e4, e5, e6, e7, hS, hL, hR]
  simp only [decide_True, Bool.not_true]

/-- Claim C8 (confirmed): an input relation that has the creation-date
and status columns (which the source reads first) but is missing one or
more of the required projection columns makes normalization fail with
an error naming exactly the missing columns, rather than silently
producing a partial relation. -/
theorem claim_C8_schema_error (parse : Cell → Option Int) (now : Int)
    (fallback : Nat → String) (df : Relation)
    (hC : "Created Date" ∈ df.cols) (hS : "LineItem Status" ∈ df.cols)
    (hmiss : missingFrom df.cols requiredInput ≠ []) :
    prepareDataframe parse now fallback df =
      Except.error (missingFrom df.cols requiredInput) := by
  have hS1 : "LineItem Status" ∈ (prepSLA parse now df).cols :=
    (mem_prepSLA_cols _ _ _ _).mpr (Or.inl hS)
  unfold prepareDataframe
  rw [if_pos hC, if_pos hS1, missing_prepRemarks_eq, if_neg hmiss]

/-- Claim C8, witness: a relation missing "Street" and "Technician
Name" fails with exactly those columns named. -/
theorem claim_C8_witness :
    prepareDataframe parseNone 0 fallbackW relC8 =
      Except.error ["Street", "Technician Name"] := by
  have h := claim_C8_schema_error parseNone 0 fallbackW relC8 (by decide) (by decide)
    (by decide)
  exact h.trans rfl

theorem rows_length_processMergeResults (merged : Relation) (value : String) :
    (processMergeResults merged value).rows.length = merged.rows.length := by
  unfold processMergeResults
  rw [rows_length_dropColsR, pmrM3_rows_length]

theorem count_filter_of_pos {α : Type} [DecidableEq α] {p : α → Bool} {a : α}
    (h : p a = true) (l : List α) :
    (l.filter p).count a = l.count a := by
  induction l with
  | nil => rfl
  | cons b l ih =>
    by_cases hb : p b = true
    · rw [List.filter_cons_of_pos hb]
      by_cases hba : b = a <;> simp [List.count_cons, hba, ih]
    · rw [List.filter_cons_of_neg (by simpa using hb)]
      have hba : ¬ b = a := fun heq => hb (heq ▸ h)
      simp [List.count_cons, hba, ih]

theorem remarks_x_mem_dropListOf (cols : List String) (value : String)
    (h : "Remarks_x" ∈ cols) : "Remarks_x" ∈ dropListOf cols value := by
  unfold dropListOf
  by_cases hy : "Remarks_y" ∈ cols <;>
    simp only [h, hy, if_true, if_false, ite_true, ite_false] <;> split <;> simp

theorem remarks_y_mem_dropListOf (cols : List String) (value : String)
    (h : "Remarks_y" ∈ cols) : "Remarks_y" ∈ dropListOf cols value := by
  unfold dropListOf
  by_cases hx : "Remarks_x" ∈ cols <;>
    simp only [h, hx, if_true, if_false, ite_true, ite_false] <;> split <;> simp

theorem value_mem_dropListOf (cols : List String) (value : String)
    (hv : value ≠ "Remarks") (h : value ∈ cols) : value ∈ dropListOf cols value := by
  simp only [dropListOf]
  by_cases hm : value ∈
      (if "Remarks_y" ∈ cols then
        (if "Remarks_x" ∈ cols then ["Remarks_x"] else []) ++ ["Remarks_y"]
      else (if "Remarks_x" ∈ cols then ["Remarks_x"] else []))
  · by_cases hc : (value ≠ "Remarks" ∧ value ∈ cols ∧ ¬ value ∈
        (if "Remarks_y" ∈ cols then
          (if "Remarks_x" ∈ cols then ["Remarks_x"] else []) ++ ["Remarks_y"]
        else (if "Remarks_x" ∈ cols then ["Remarks_x"] else [])))
    · rw [if_pos hc]
      exact List.mem_append_left _ hm
    · rw [if_neg hc]
      exact hm
  · rw [if_pos ⟨hv, h, hm⟩]
    simp

theorem foldl_pairStep_sum {Y : Type} (p : Y → Bool) (l : List Y) (a b : Nat) :
    ((l.foldl (pairStep p) (a, b)).1 + (l.foldl (pairStep p) (a, b)).2) =
      a + b + l.length := by
  induction l generalizing a b with
  | nil => rfl
  | cons x l ih =>
    rw [List.foldl_cons]
    by_cases hx : p x = true
    · rw [show pairStep p (a, b) x = (a + 1, b) from by simp [pairStep, hx]]
      rw [ih (a + 1) b, List.length_cons]
      omega
    · rw [show pairStep p (a, b) x = (a, b + 1) from by simp [pairStep, hx]]
      rw [ih a (b + 1), List.length_cons]
      omega

theorem cols_pmrM2_of_mem (merged : Relation) (value : String)
    (hR : "Remarks" ∈ merged.cols) : (pmrM2 merged value).cols = merged.cols := by
  unfold pmrM2
  rw [cols_setColF_mem, pmrM1_cols]
  rw [pmrM1_cols]
  exact hR

theorem cols_pmrM2_of_not_mem (merged : Relation) (value : String)
    (hR : ¬ "Remarks" ∈ merged.cols) :
    (pmrM2 merged value).cols = merged.cols ++ ["Remarks"] := by
  unfold pmrM2
  rw [cols_setColF_not_mem, pmrM1_cols]
  rw [pmrM1_cols]
  exact hR

/-- Claim C9 (confirmed): after merge reconciliation the relation has
exactly one "Remarks" column, contains neither "Remarks_x" nor
"Remarks_y", and does not contain the resolved value column when that
column is distinct from "Remarks"; and the two reported match
statistics sum to the returned relation's row count. -/
theorem claim_C9_invariants (merged : Relation) (value : String)
    (hnd : merged.cols.Nodup) :
    (processMergeResults merged value).cols.count "Remarks" = 1 ∧
    ¬ "Remarks_x" ∈ (processMergeResults merged value).cols ∧
    ¬ "Remarks_y" ∈ (processMergeResults merged value).cols ∧
    (value ≠ "Remarks" → ¬ value ∈ (processMergeResults merged value).cols) ∧
    (mergeStats merged value).1 + (mergeStats merged value).2 =
      (processMergeResults merged value).rows.length := by
  have hcount2 : (pmrM2 merged value).cols.count "Remarks" = 1 := by
    by_cases hR : "Remarks" ∈ merged.cols
    · rw [cols_pmrM2_of_mem merged value hR]
      exact List.count_eq_one_of_mem hnd hR
    · rw [cols_pmrM2_of_not_mem merged value hR, List.count_append]
      rw [List.count_eq_zero_of_not_mem hR]
      rfl
  refine ⟨?_, ?_, ?_, ?_, ?_⟩
  · show ((pmrM3 merged value).cols.filter _).count "Remarks" = 1
    rw [count_filter_of_pos (by simp [remarks_not_mem_dropListOf])]
    exact hcount2
  · rw [show processMergeResults merged value =
        dropColsR (pmrM3 merged value) (dropListOf (pmrM3 merged value).cols value) from rfl,
      mem_dropColsR_cols]
    rintro ⟨hmem, hnd2⟩
    exact hnd2 (remarks_x_mem_dropListOf _ _ hmem)
  · rw [show processMergeResults merged value =
        dropColsR (pmrM3 merged value) (dropListOf (pmrM3 merged value).cols value) from rfl,
      mem_dropColsR_cols]
    rintro ⟨hmem, hnd2⟩
    exact hnd2 (remarks_y_mem_dropListOf _ _ hmem)
  · intro hv
    rw [show processMergeResults merged value =
        dropColsR (pmrM3 merged value) (dropListOf (pmrM3 merged value).cols value) from rfl,
      mem_dropColsR_cols]
    rintro ⟨hmem, hnd2⟩
    exact hnd2 (value_mem_dropListOf _ _ hv hmem)
  · rw [rows_length_processMergeResults]
    show ((pmrM2 merged value).rows.foldl
        (pairStep (fun row => isOverlay (lookupValStr (pmrM2 merged value).cols
          (lookColOf merged.cols value) row))) (0, 0)).1 +
      ((pmrM2 merged value).rows.foldl
        (pairStep (fun row => isOverlay (lookupValStr (pmrM2 merged value).cols
          (lookColOf merged.cols value) row))) (0, 0)).2 = merged.rows.length
    rw [foldl_pairStep_sum]
    simp [pmrM2_rows_length]

/-- Claim C9, witness: on a two-row collision-shaped merged relation,
the output has a single "Remarks" column, no transient columns, and the
statistics (1 overwrite, 1 original kept) sum to the row count. -/
theorem claim_C9_witness :
    (processMergeResults mergedW9 "Remarks").cols.count "Remarks" = 1 ∧
    ¬ "Remarks_x" ∈ (processMergeResults mergedW9 "Remarks").cols ∧
    ¬ "Remarks_y" ∈ (processMergeResults mergedW9 "Remarks").cols ∧
    (mergeStats mergedW9 "Remarks").1 + (mergeStats mergedW9 "Remarks").2 =
      (processMergeResults mergedW9 "Remarks").rows.length := by
  have h := claim_C9_invariants mergedW9 "Remarks" (by decide)
  exact ⟨h.1, h.2.1, h.2.2.1, h.2.2.2.2⟩

/-- Claim C10 (confirmed): when the key and value columns have been
resolved but the join operation itself fails, `apply_vlookup` returns
the primary relation as of the key-cleaning step: same columns, every
column other than the key unchanged, and the key column already holding
the normalized (string-cast, ".0"-stripped) values. -/
theorem claim_C10_merge_failure_frame
    (mergeFn : Relation → Relation → String → String → Option Relation)
    (df lkp : Relation) (askKey askValue : Option String) (key value : String)
    (hrect : Rect df)
    (hdet : determineLookupColumns df lkp askKey askValue = (key, value))
    (hk : key ≠ "") (hv : value ≠ "")
    (hfail : mergeFn (cleanKeyColumn df key) (cleanKeyColumn lkp key) key value = none) :
    applyVlookupWith mergeFn df (some lkp) askKey askValue = cleanKeyColumn df key ∧
    (cleanKeyColumn df key).cols = df.cols ∧
    (∀ c, c ≠ key → ∀ i, i < df.rows.length →
      cellOf (cleanKeyColumn df key) c i = cellOf df c i) ∧
    (∀ i, i < df.rows.length →
      cellOf (cleanKeyColumn df key) key i =
        Cell.str (stripDotZeroStr (cellToStr (cellOf df key i)))) := by
  have hkey : key ∈ df.cols := by
    simp only [determineLookupColumns] at hdet
    by_cases h0 : (if "Case Number" ∈ lkp.cols then "Case Number"
        else promptUserColumn askKey lkp.cols) = ""
    · rw [if_pos h0] at hdet
      simp only [Prod.mk.injEq] at hdet
      exact absurd hdet.1.symm hk
    · rw [if_neg h0] at hdet
      by_cases h1 : (if "Case Number" ∈ lkp.cols then "Case Number"
          else promptUserColumn askKey lkp.cols) ∈ df.cols
      · rw [if_neg (fun hcon => hcon h1)] at hdet
        simp only [Prod.mk.injEq] at hdet
        exact hdet.1 ▸ h1
      · rw [if_pos h1] at hdet
        simp only [Prod.mk.injEq] at hdet
        exact absurd hdet.1.symm hk
  refine ⟨?_, ?_, ?_, ?_⟩
  · simp only [applyVlookupWith, hdet]
    rw [if_neg (by simp [hk, hv])]
    rw [hfail]
  · unfold cleanKeyColumn
    exact cols_setColF_mem _ _ _ hkey
  · intro c hc i hi
    unfold cleanKeyColumn
    exact cellOf_setColF_ne _ _ _ _ _ hc hrect hi
  · intro i hi
    unfold cleanKeyColumn
    rw [cellOf_setColF_self _ _ _ _ hrect hi]
    rfl

/-- Claim C10, witness: with a merge step that fails, the returned
relation has the normalized key "5" (from "5.0") and the untouched
remark "hello". -/
theorem claim_C10_witness :
    applyVlookupWith mergeNone dfW10 (some lkpW10) none none =
      cleanKeyColumn dfW10 "Case Number" ∧
    cellOf (cleanKeyColumn dfW10 "Case Number") "Case Number" 0 = Cell.str "5" ∧
    cellOf (cleanKeyColumn dfW10 "Case Number") "Remarks" 0 = Cell.str "hello" := by
  have h := claim_C10_merge_failure_frame mergeNone dfW10 lkpW10 none none
    "Case Number" "Remarks" (by decide) (by decide) (by decide) (by decide) rfl
  exact ⟨h.1, (h.2.2.2 0 (by decide)).trans (by decide),
    (h.2.2.1 "Remarks" (by decide) 0 (by decide)).trans rfl⟩
